import Mathlib

/-!
Verification of the byte mutator in `src/fuzzers/simple/cpp/simple-fuzzer.cpp`.

The program reads one file into a byte string, then for each index `i` in
increasing order evaluates `rand() % 2 == 0`; when that holds it draws one more
value `rand() % 256` and stores it at index `i`, otherwise it leaves the byte
alone.  Finally it writes the buffer plus one newline to standard output and
exits with status 0.  Wrong argument count or an unopenable file abort with
status 1 and a message on standard error, before anything reaches standard
output.

We embed the program shallowly.  The C library generator is modelled as the
abstract stream `g : Nat → Nat` of successive `rand()` results after the single
`srand` call; `g k` is the value of the `(k+1)`-st call to `rand()`.  Bytes are
`Nat` values (a replacement byte is `rand() % 256`, hence `< 256`).  The file
system is modelled by a function `String → Option (List Nat)` giving each
path's content when it can be opened.
-/

namespace SimpleFuzzer

/-- The body of one loop iteration of `main` (simple-fuzzer.cpp lines 33-38)
applied to a byte `b`, where `d` is the decision draw `rand()` and `v` the
replacement draw `rand()`: if `d % 2 == 0` the byte becomes `v % 256`,
otherwise it is kept. -/
def mutStep (d v b : Nat) : Nat :=
  if d % 2 = 0 then v % 256 else b

/-- The mutation loop of `main` (simple-fuzzer.cpp lines 31-40) on the suffix
`data` of the buffer, with `k` the number of `rand()` calls already made.  A
kept byte consumes one draw, a replaced byte consumes two. -/
def mutateFrom (g : Nat → Nat) : Nat → List Nat → List Nat
  | _, [] => []
  | k, b :: bs =>
    if g k % 2 = 0 then g (k + 1) % 256 :: mutateFrom g (k + 2) bs
    else b :: mutateFrom g (k + 1) bs

/-- The whole mutation loop, starting at the first draw after seeding. -/
def mutate (g : Nat → Nat) (data : List Nat) : List Nat :=
  mutateFrom g 0 data

/-- Stream position when the loop reaches position `i`, having started at
stream position `k`: each earlier position consumed two draws when its
decision draw was even and one when it was odd. -/
def streamIdxFrom (g : Nat → Nat) (k : Nat) : Nat → Nat
  | 0 => k
  | i + 1 =>
    streamIdxFrom g k i + (if g (streamIdxFrom g k i) % 2 = 0 then 2 else 1)

/-- Stream position when the loop reaches byte position `i`, counting from the
first draw after seeding. -/
def streamIdx (g : Nat → Nat) : Nat → Nat :=
  streamIdxFrom g 0

/-- Total number of `rand()` calls made by the mutation loop on `data`. -/
def drawsUsed (g : Nat → Nat) (data : List Nat) : Nat :=
  streamIdx g data.length

/-- The newline byte appended by `endl` (simple-fuzzer.cpp line 43). -/
def newline : Nat := 10

/-- Observable outcome of one invocation: exit status, bytes written to
standard output, text written to standard error. -/
structure RunResult where
  exitCode : Nat
  stdout : List Nat
  stderr : String
  deriving DecidableEq

/-- The usage message printed on wrong argument count
(simple-fuzzer.cpp line 10), `endl` included. -/
def usageMsg (prog : String) : String :=
  "Usage: " ++ prog ++ " <input_file>" ++ "\n"

/-- The message printed when the input file cannot be opened
(simple-fuzzer.cpp line 20), `endl` included. -/
def ioErrMsg (path : String) : String :=
  "Error: Unable to open input file " ++ path ++ "\n"

/-- `main` of simple-fuzzer.cpp.  `prog` is `argv[0]`, `args` the remaining
arguments (`argc = args.length + 1`), `openFile` the file system, and `g` the
generator stream produced by the seeded C library generator. -/
def runFuzzer (prog : String) (args : List String)
    (openFile : String → Option (List Nat)) (g : Nat → Nat) : RunResult :=
  match args with
  | [path] =>
    match openFile path with
    | none => ⟨1, [], ioErrMsg path⟩
    | some data => ⟨0, mutate g data ++ [newline], ""⟩
  | _ => ⟨1, [], usageMsg prog⟩

/-- Modelled from the spec: the C library generator behind `srand`/`rand` is
not part of this repository; the spec only requires that it is a process-wide
pseudorandom generator seeded once, so that the draw stream is a deterministic
function of the seed.  We model it as a linear congruential generator producing
the stream of successive `rand()` values from the seed. -/
def lcgNext (s : Nat) : Nat :=
  (s * 1103515245 + 12345) % 2147483648

/-- Modelled from the spec: the stream of `rand()` values after `srand seed`;
`randStream seed k` is the `(k+1)`-st value drawn. -/
def randStream (seed : Nat) : Nat → Nat
  | 0 => lcgNext (seed % 2147483648)
  | k + 1 => lcgNext (randStream seed k)

/-- One invocation whose generator was seeded with `seed`
(simple-fuzzer.cpp line 15 seeds it with the current wall-clock second). -/
def runWithSeed (seed : Nat) (prog : String) (args : List String)
    (openFile : String → Option (List Nat)) : RunResult :=
  runFuzzer prog args openFile (randStream seed)

/-- The bytes an invocation with generator stream `g` emits on standard output
for input `data`: the mutated buffer plus the trailing newline. -/
def outBytes (g : Nat → Nat) (data : List Nat) : List Nat :=
  mutate g data ++ [newline]

/- ### Helper lemmas -/

theorem mutateFrom_length (g : Nat → Nat) :
    ∀ (data : List Nat) (k : Nat), (mutateFrom g k data).length = data.length := by
  intro data
  induction data with
  | nil => intro k; rfl
  | cons b bs ih =>
    intro k
    unfold mutateFrom
    by_cases h : g k % 2 = 0
    · simp [h, ih]
    · simp [h, ih]

theorem streamIdxFrom_shift (g : Nat → Nat) (k : Nat) :
    ∀ i : Nat,
      streamIdxFrom g k (i + 1) =
        streamIdxFrom g (k + (if g k % 2 = 0 then 2 else 1)) i := by
  intro i
  induction i with
  | zero => simp [streamIdxFrom]
  | succ i ih =>
    show streamIdxFrom g k (i + 1) + _ = _
    rw [ih]
    rfl

theorem mutateFrom_getElem? (g : Nat → Nat) :
    ∀ (data : List Nat) (k i b : Nat), data[i]? = some b →
      (mutateFrom g k data)[i]? =
        some (mutStep (g (streamIdxFrom g k i)) (g (streamIdxFrom g k i + 1)) b) := by
  intro data
  induction data with
  | nil => intro k i b h; simp at h
  | cons b₀ bs ih =>
    intro k i b h
    match i with
    | 0 =>
      simp at h
      subst h
      unfold mutateFrom mutStep streamIdxFrom
      by_cases hd : g k % 2 = 0
      · simp [hd]
      · simp [hd]
    | i + 1 =>
      simp at h
      rw [streamIdxFrom_shift]
      unfold mutateFrom
      by_cases hd : g k % 2 = 0
      · simp only [hd, if_true, List.getElem?_cons_succ]
        exact ih (k + 2) i b h
      · simp only [hd, if_false, List.getElem?_cons_succ]
        exact ih (k + 1) i b h

theorem mutate_len (g : Nat → Nat) (data : List Nat) :
    (mutate g data).length = data.length :=
  mutateFrom_length g data 0

theorem streamIdx_succ (g : Nat → Nat) (i : Nat) :
    streamIdx g (i + 1) =
      streamIdx g i + (if g (streamIdx g i) % 2 = 0 then 2 else 1) := rfl

theorem outBytes_length (g : Nat → Nat) (data : List Nat) :
    (outBytes g data).length = data.length + 1 := by
  simp [outBytes, mutate_len]

/- ### Claim theorems -/

/-- C1: the mutation loop processes byte positions in strictly increasing
order; at position `i` it reads one decision draw at stream position
`streamIdx g i`; an odd draw keeps the byte and consumes nothing more (the
loop moves on by one draw), an even draw consumes exactly one further value
and replaces the byte by that value modulo 256; the stream position is
strictly increasing across positions, so there is no lookahead and no
backtracking. -/
theorem mutate_in_order_single_draws (g : Nat → Nat) (data : List Nat)
    (i b : Nat) (h : data[i]? = some b) :
    (mutate g data)[i]? =
      some (mutStep (g (streamIdx g i)) (g (streamIdx g i + 1)) b)
    ∧ streamIdx g (i + 1) =
        streamIdx g i + (if g (streamIdx g i) % 2 = 0 then 2 else 1)
    ∧ streamIdx g i < streamIdx g (i + 1) := by
  refine ⟨mutateFrom_getElem? g data 0 i b h, rfl, ?_⟩
  rw [streamIdx_succ]
  split <;> omega

/-- Witness for C1 at the identity stream and input `[5, 6]`: the draw at
position 0 is 0 (even), so the byte becomes draw 1 mod 256 = 1, and the
stream position advances from 0 to 2. -/
theorem mutate_in_order_single_draws_witness :
    (([5, 6] : List Nat)[0]? = some 5)
    ∧ ((mutate (fun k => k) [5, 6])[0]? = some 1
      ∧ streamIdx (fun k => k) 1 = 2
      ∧ streamIdx (fun k => k) 0 < streamIdx (fun k => k) 1) :=
  ⟨rfl, mutate_in_order_single_draws (fun k => k) [5, 6] 0 5 rfl⟩

/-- C2: the mutated byte sequence has exactly the length of the input; the
loop only replaces bytes in place, never inserts or deletes. -/
theorem mutate_preserves_length (g : Nat → Nat) (data : List Nat) :
    (mutate g data).length = data.length :=
  mutateFrom_length g data 0

/-- C3: when the input file opens and holds `data`, the run exits with
status 0 and standard output is exactly the mutated bytes followed by one
newline, hence exactly `data.length + 1` bytes. -/
theorem run_success_output (prog path : String)
    (openFile : String → Option (List Nat)) (g : Nat → Nat) (data : List Nat)
    (h : openFile path = some data) :
    (runFuzzer prog [path] openFile g).exitCode = 0
    ∧ (runFuzzer prog [path] openFile g).stdout = mutate g data ++ [newline]
    ∧ (runFuzzer prog [path] openFile g).stdout.length = data.length + 1 := by
  refine ⟨?_, ?_, ?_⟩ <;> simp [runFuzzer, h, mutate_len]

/-- Witness for C3 on a three-byte file under the all-zero stream. -/
theorem run_success_output_witness :
    ((fun _ : String => some ([1, 2, 3] : List Nat)) "in.txt" = some [1, 2, 3])
    ∧ ((runFuzzer "f" ["in.txt"] (fun _ => some [1, 2, 3]) (fun _ => 0)).exitCode = 0
      ∧ (runFuzzer "f" ["in.txt"] (fun _ => some [1, 2, 3]) (fun _ => 0)).stdout
          = mutate (fun _ => 0) [1, 2, 3] ++ [newline]
      ∧ (runFuzzer "f" ["in.txt"] (fun _ => some [1, 2, 3]) (fun _ => 0)).stdout.length
          = 4) :=
  ⟨rfl, run_success_output "f" "in.txt" (fun _ => some [1, 2, 3]) (fun _ => 0)
    [1, 2, 3] rfl⟩

/-- C4: any argument count other than exactly one path argument makes the run
print `Usage: <program> <input_file>` on standard error, exit with status 1,
and write nothing to standard output. -/
theorem run_usage_error (prog : String) (args : List String)
    (openFile : String → Option (List Nat)) (g : Nat → Nat)
    (h : args.length ≠ 1) :
    runFuzzer prog args openFile g = ⟨1, [], usageMsg prog⟩ := by
  match args with
  | [] => rfl
  | [a] => exact absurd rfl h
  | a :: b :: rest => rfl

/-- Witness for C4 with zero path arguments. -/
theorem run_usage_error_witness :
    (([] : List String).length ≠ 1)
    ∧ runFuzzer "f" [] (fun _ => none) (fun _ => 0) = ⟨1, [], usageMsg "f"⟩ :=
  ⟨by decide, run_usage_error "f" [] (fun _ => none) (fun _ => 0) (by decide)⟩

/-- C5: an unopenable path makes the run print the error message naming that
path on standard error, exit with status 1, and write nothing to standard
output. -/
theorem run_io_error (prog path : String)
    (openFile : String → Option (List Nat)) (g : Nat → Nat)
    (h : openFile path = none) :
    runFuzzer prog [path] openFile g = ⟨1, [], ioErrMsg path⟩
    ∧ ioErrMsg path = "Error: Unable to open input file " ++ path ++ "\n" := by
  refine ⟨?_, rfl⟩
  simp [runFuzzer, h]

/-- Witness for C5 with a file system on which no path opens. -/
theorem run_io_error_witness :
    ((fun _ : String => (none : Option (List Nat))) "missing" = none)
    ∧ (runFuzzer "f" ["missing"] (fun _ => none) (fun _ => 0)
          = ⟨1, [], ioErrMsg "missing"⟩
      ∧ ioErrMsg "missing"
          = "Error: Unable to open input file " ++ "missing" ++ "\n") :=
  ⟨rfl, run_io_error "f" "missing" (fun _ => none) (fun _ => 0) rfl⟩

/-- C6: two invocations that receive the same generator seed and see the same
file contents produce identical results; the output is a deterministic
function of the seed and the input. -/
theorem run_deterministic (seed₁ seed₂ : Nat) (prog : String)
    (args : List String) (openFile₁ openFile₂ : String → Option (List Nat))
    (hseed : seed₁ = seed₂) (hfile : openFile₁ = openFile₂) :
    runWithSeed seed₁ prog args openFile₁ = runWithSeed seed₂ prog args openFile₂ := by
  rw [hseed, hfile]

/-- Witness for C6 with seed 42 on a one-byte file. -/
theorem run_deterministic_witness :
    ((42 : Nat) = 42)
    ∧ ((fun _ : String => some ([7] : List Nat)) = (fun _ => some [7]))
    ∧ runWithSeed 42 "f" ["p"] (fun _ => some [7])
        = runWithSeed 42 "f" ["p"] (fun _ => some [7]) :=
  ⟨rfl, rfl, run_deterministic 42 42 "f" ["p"] (fun _ => some [7])
    (fun _ => some [7]) rfl rfl⟩

/-- C7: an empty input file makes the loop consume zero draws, and the run
writes exactly one newline byte to standard output and exits with status 0. -/
theorem run_empty_input (prog path : String)
    (openFile : String → Option (List Nat)) (g : Nat → Nat)
    (h : openFile path = some []) :
    drawsUsed g [] = 0
    ∧ mutate g [] = []
    ∧ (runFuzzer prog [path] openFile g).stdout = [newline]
    ∧ (runFuzzer prog [path] openFile g).exitCode = 0 := by
  refine ⟨rfl, rfl, ?_, ?_⟩ <;> simp [runFuzzer, h, mutate, mutateFrom]

/-- Witness for C7 with an empty file under the identity stream. -/
theorem run_empty_input_witness :
    ((fun _ : String => some ([] : List Nat)) "empty" = some [])
    ∧ (drawsUsed (fun k => k) [] = 0
      ∧ mutate (fun k => k) [] = []
      ∧ (runFuzzer "f" ["empty"] (fun _ => some []) (fun k => k)).stdout = [newline]
      ∧ (runFuzzer "f" ["empty"] (fun _ => some []) (fun k => k)).exitCode = 0) :=
  ⟨rfl, run_empty_input "f" "empty" (fun _ => some []) (fun k => k) rfl⟩

/-- C8: the mutation loop is a total function that visits every byte position
exactly once (the output has one byte per input byte), and the only failure
modes of a run are the usage error and the I/O error: every run exits with
status 0, or exits with status 1 with empty standard output because the
argument count was wrong or the file did not open. -/
theorem run_no_other_failures (prog : String) (args : List String)
    (openFile : String → Option (List Nat)) (g : Nat → Nat) :
    (∀ data : List Nat, (mutate g data).length = data.length)
    ∧ ((runFuzzer prog args openFile g).exitCode = 0
      ∨ ((runFuzzer prog args openFile g).exitCode = 1
        ∧ (runFuzzer prog args openFile g).stdout = []
        ∧ (args.length ≠ 1 ∨ ∃ path, args = [path] ∧ openFile path = none))) := by
  refine ⟨fun data => mutate_len g data, ?_⟩
  match args with
  | [path] =>
    cases hf : openFile path with
    | none =>
      right
      refine ⟨?_, ?_, Or.inr ⟨path, rfl, hf⟩⟩ <;> simp [runFuzzer, hf]
    | some data =>
      left
      simp [runFuzzer, hf]
  | [] => exact Or.inr ⟨rfl, rfl, Or.inl (by simp)⟩
  | a :: b :: rest => exact Or.inr ⟨rfl, rfl, Or.inl (by simp)⟩

/-- C9: a run never reproduces its input, and running the mutator over the
output of a previous run never reproduces that previous output: each run
appends one newline, so the lengths differ. -/
theorem mutate_not_idempotent (g g₁ g₂ : Nat → Nat) (data : List Nat) :
    outBytes g data ≠ data
    ∧ outBytes g₂ (outBytes g₁ data) ≠ outBytes g₁ data := by
  constructor
  · intro h
    have h1 : (outBytes g data).length = data.length := by rw [h]
    rw [outBytes_length] at h1
    omega
  · intro h
    have h1 : (outBytes g₂ (outBytes g₁ data)).length = (outBytes g₁ data).length := by
      rw [h]
    rw [outBytes_length] at h1
    omega

/-- C10: over the 2 × 256 equally likely pairs of a decision draw parity and a
replacement draw residue, exactly 255 leave the byte changed, so the chance
that an output byte differs from the input byte is 255/512 < 1/2; in
particular a position chosen for replacement can redraw its original value
and stay unchanged. -/
theorem mutStep_change_probability (b : Nat) (h : b < 256) :
    (((Finset.range 2) ×ˢ (Finset.range 256)).filter
        (fun p => mutStep p.1 p.2 b ≠ b)).card = 255
    ∧ (((((Finset.range 2) ×ˢ (Finset.range 256)).filter
        (fun p => mutStep p.1 p.2 b ≠ b)).card : ℚ) / 512 < 1 / 2)
    ∧ mutStep 0 b b = b := by
  have hb : b ∈ Finset.range 256 := Finset.mem_range.mpr h
  have hset : ((Finset.range 2) ×ˢ (Finset.range 256)).filter
      (fun p => mutStep p.1 p.2 b ≠ b)
      = {(0 : Nat)} ×ˢ ((Finset.range 256).erase b) := by
    ext ⟨d, v⟩
    simp only [Finset.mem_filter, Finset.mem_product, Finset.mem_range,
      Finset.mem_singleton, Finset.mem_erase, mutStep]
    constructor
    · rintro ⟨⟨hd, hv⟩, hne⟩
      match d, hd with
      | 0, _ =>
        rw [if_pos (by norm_num), Nat.mod_eq_of_lt hv] at hne
        exact ⟨rfl, hne, hv⟩
      | 1, _ =>
        rw [if_neg (by norm_num)] at hne
        exact absurd rfl hne
    · rintro ⟨hd0, hvne, hv⟩
      subst hd0
      refine ⟨⟨by norm_num, hv⟩, ?_⟩
      rw [if_pos (by norm_num), Nat.mod_eq_of_lt hv]
      exact hvne
  have hcard : (((Finset.range 2) ×ˢ (Finset.range 256)).filter
      (fun p => mutStep p.1 p.2 b ≠ b)).card = 255 := by
    rw [hset, Finset.card_product, Finset.card_singleton,
      Finset.card_erase_of_mem hb, Finset.card_range]
  refine ⟨hcard, ?_, ?_⟩
  · rw [hcard]
    norm_num
  · simp [mutStep, Nat.mod_eq_of_lt h]

/-- Witness for C10 at byte value 7. -/
theorem mutStep_change_probability_witness :
    ((7 : Nat) < 256)
    ∧ ((((Finset.range 2) ×ˢ (Finset.range 256)).filter
        (fun p => mutStep p.1 p.2 7 ≠ 7)).card = 255
      ∧ (((((Finset.range 2) ×ˢ (Finset.range 256)).filter
          (fun p => mutStep p.1 p.2 7 ≠ 7)).card : ℚ) / 512 < 1 / 2)
      ∧ mutStep 0 7 7 = 7) :=
  ⟨by norm_num, mutStep_change_probability 7 (by norm_num)⟩

end SimpleFuzzer
